import Mathlib

/-!
Verification of the reward-emission scheduling core of a CLMM liquidity-pool
program, centred on the `SetRewardParams` instruction
(`programs/amm/src/instructions/set_reward_params.rs`) and the permission
resolver (`programs/amm/src/states/operation_account.rs`).

Machine integers (`u64`, `u128`, `U256`) are embedded as `Nat` with explicit
bound checks exactly where the source checks (or panics on) overflow:
`checked_sub`/`checked_add` become `Option`-valued operations, `saturating_sub`
becomes truncated `Nat` subtraction, and `U256::as_u64` becomes a bound check
(the source's `as_u64` aborts when the value exceeds `u64::MAX`).  Fallible
paths return `Except Err`; a panicking path (`assert!`, `unwrap()` on `None`
or `Err`) is the `Err.panicAbort` outcome, since on-chain a panic aborts the
whole instruction just like a returned error.
-/

namespace SetRewardParamsSpec

/-- Identities (`Pubkey`) are embedded as naturals; `Pubkey::default()` is 0. -/
abbrev Pubkey := Nat

/-- `Pubkey::default()`. -/
def PUBKEY_DEFAULT : Pubkey := 0

/-- Modelled from the spec: the pool holds a fixed number of reward slots
(`REWARD_NUM`, declared in `states/pool.rs`, which is not under `src/`).
The spec only says "fixed number of slots per pool"; the concrete count is
taken as 3. No claim depends on the exact value. -/
def REWARD_NUM : Nat := 3

namespace fixed_point_64

/-- Modelled from the spec: the Q64.64 fixed-point scale 2^64
(`libraries/fixed_point_64.rs` is not under `src/`; the spec fixes the scale
as "scale 2^64"). -/
def Q64 : Nat := 2 ^ 64

end fixed_point_64

namespace reward_period_limit

/-- Modelled from the spec: minimum fresh-schedule window / extension length
for an owner update (`states/pool.rs::reward_period_limit` is not under
`src/`; the spec only names a configured `MIN_PERIOD`). Taken as 7 days. -/
def MIN_REWARD_PERIOD : Nat := 7 * 24 * 60 * 60

/-- Modelled from the spec: maximum fresh-schedule window / extension length
for an owner update (`MAX_PERIOD` in the spec). Taken as 90 days. -/
def MAX_REWARD_PERIOD : Nat := 90 * 24 * 60 * 60

/-- Modelled from the spec: the grace window below which an owner may lower
the emission rate ("e.g. 72 hours" in the spec). Taken as 72 hours. -/
def INCREASE_EMISSIONES_PERIOD : Nat := 72 * 60 * 60

end reward_period_limit

/-- 2^64, the number of values of a `u64`: `checked_sub` fails (and the
source panics on its `unwrap`) exactly on underflow, `checked_add` exactly
when the sum reaches this bound, and `U256::as_u64` aborts exactly when the
value reaches this bound. These appear as explicit guards in the update
rules below. -/
def U64_CARD : Nat := 2 ^ 64

/-- Modelled from the spec: `MulDiv::mul_div_floor` over the 256-bit integer
type (`libraries/full_math.rs` is not under `src/`). The spec sets the
contract: `⌊a·b/denom⌋` over a 256-bit intermediate, failing on a zero
denominator. The operands reaching it are at most 128-bit, so the 256-bit
product is exact and the embedding computes on unbounded `Nat`. -/
def mul_div_floor (a b denom : Nat) : Option Nat :=
  if denom = 0 then none else some (a * b / denom)

/-- Modelled from the spec: `MulDiv::mul_div_ceil`, `⌈a·b/denom⌉`, failing on
a zero denominator (see `mul_div_floor`). -/
def mul_div_ceil (a b denom : Nat) : Option Nat :=
  if denom = 0 then none else some ((a * b + (denom - 1)) / denom)

/-- The abort causes of a `SetRewardParams` request. Each constructor tags one
concrete abort site of `set_reward_params.rs` (the anchor macros
`require_gt!` / `require_keys_eq!` raise generic violation codes; distinct
constructors keep the sites apart, which is how the spec's error taxonomy
names them). `panicAbort` is any `assert!`/`unwrap()` panic. -/
inductive Err
  /-- `require_gt!(end_time, open_time)` failed. -/
  | endNotAfterOpen
  /-- `require_gt!(emissions_per_second_x64, 0)` failed. -/
  | zeroEmissionRate
  /-- `require_gt!(open_time, current_timestamp)` failed. -/
  | openNotAfterNow
  /-- `require_keys_eq!(authority, pool_state.owner)` failed (spec: Unauthorized). -/
  | notPoolOwner
  /-- `ErrorCode::UnInitializedRewardInfo`. -/
  | unInitializedRewardInfo
  /-- `ErrorCode::NotApproved`: owner caller on a slot with
  `current_timestamp <= open_time` (spec: NotYetOpenForOwner). -/
  | notApproved
  /-- `ErrorCode::InvalidRewardPeriod`. -/
  | invalidRewardPeriod
  /-- `ErrorCode::NotApproveUpdateRewardEmissiones` (spec: InvalidExtension). -/
  | notApproveUpdateRewardEmissiones
  /-- `require_gt!(INCREASE_EMISSIONES_PERIOD, left_reward_time)` failed
  (spec: RateDecreaseTooEarly). -/
  | rateDecreaseTooEarly
  /-- `require_keys_eq!(reward_token_vault.mint, authority_token_account.mint)`
  failed (spec: VaultMismatch). -/
  | vaultMintMismatch
  /-- `require_keys_eq!(reward_token_vault.key(), reward_info.token_vault)`
  failed (spec: VaultMismatch). -/
  | vaultKeyMismatch
  /-- An `assert!` or `unwrap()` panic: on-chain the instruction aborts. -/
  | panicAbort
deriving DecidableEq, Repr

/-- One reward slot of the pool (`states/pool.rs::RewardInfo`, fields the
scheduling core reads or writes; the struct itself is not under `src/`, its
fields are fixed by the spec's data model and by how
`set_reward_params.rs` uses them). -/
structure RewardInfo where
  openTime : Nat
  endTime : Nat
  lastUpdateTime : Nat
  emissionsPerSecondX64 : Nat
  tokenMint : Pubkey
  tokenVault : Pubkey
deriving DecidableEq, Repr

/-- Modelled from the spec: `RewardInfo::initialized()` (in `states/pool.rs`,
not under `src/`): an "initialized flag/sentinel distinguishing slot
configured from slot empty" — a configured slot has a non-default reward
mint. -/
def RewardInfo.isInitialized (r : RewardInfo) : Bool :=
  r.tokenMint ≠ PUBKEY_DEFAULT

/-- The pool fields the scheduling core touches (`states/pool.rs::PoolState`,
not under `src/`; the spec's data model: the recorded owner and the embedded
reward-slot array). -/
structure PoolState where
  owner : Pubkey
  rewardInfos : List RewardInfo
deriving DecidableEq, Repr

/-- Modelled from the spec: `PoolState::update_reward_infos` (in
`states/pool.rs`, not under `src/`) as far as this core observes it: on every
interaction each configured slot's `last_update_time` is advanced to
`min(now, end_time)`; accrual bookkeeping is out of scope. -/
def RewardInfo.settleTo (r : RewardInfo) (now : Nat) : RewardInfo :=
  if r.isInitialized then { r with lastUpdateTime := min now r.endTime } else r

/-- Modelled from the spec: the pool-level `update_reward_infos(now)` advance,
applied to every slot (see `RewardInfo.settleTo`). -/
def PoolState.update_reward_infos (p : PoolState) (now : Nat) : PoolState :=
  { p with rewardInfos := p.rewardInfos.map (fun r => r.settleTo now) }

/-- `OperationState::validate_operation_owner`
(`states/operation_account.rs`): the caller is a privileged operator iff it
is a non-default identity present in the allow-list. -/
def validate_operation_owner (operationOwners : List Pubkey) (owner : Pubkey) : Bool :=
  owner ≠ PUBKEY_DEFAULT && operationOwners.contains owner

/-- The `U256` ceiling mul-div at the constant denominator `Q64`, as used at
every ceiling call site of `set_reward_params.rs`
(`.mul_div_ceil(_, Q64).unwrap()`): the denominator is the non-zero constant
`2^64`, so the source's `unwrap()` of `mul_div_ceil`'s result always succeeds
and yields this quotient (see `mul_div_ceil_q64`); the separate `as_u64`
range check follows at the call sites. -/
def mulDivCeilQ64 (a b : Nat) : Nat :=
  (a * b + (fixed_point_64.Q64 - 1)) / fixed_point_64.Q64

/-- The `U256` floor mul-div at the constant denominator `Q64`, as used at
every floor call site of `set_reward_params.rs` (see `mulDivCeilQ64`). -/
def mulDivFloorQ64 (a b : Nat) : Nat :=
  a * b / fixed_point_64.Q64

/-- `normal_update` (`set_reward_params.rs`, lines 147–237): the owner rule.
Returns the updated slot and the funding amount, or the abort cause.
`a.checked_sub(b).unwrap()` is rendered as a guard `b ≤ a` whose failure is
the panic abort, and `.unwrap().as_u64()` on a mul-div result as the
corresponding quotient guarded by the 64-bit range check. -/
def normal_update (rewardInfo : RewardInfo) (currentTimestamp : Nat)
    (emissionsPerSecondX64 : Nat) (openTime endTime : Nat) :
    Except Err (RewardInfo × Nat) :=
  if rewardInfo.lastUpdateTime = rewardInfo.endTime then
    -- reward emission has finished: start a fresh schedule
    -- let time_delta = end_time.checked_sub(open_time).unwrap()
    if openTime ≤ endTime then
      let timeDelta := endTime - openTime
      if timeDelta < reward_period_limit.MIN_REWARD_PERIOD
          ∨ timeDelta > reward_period_limit.MAX_REWARD_PERIOD then
        .error .invalidRewardPeriod
      else
        -- mul_div_ceil(time_delta, rate, Q64).unwrap().as_u64()
        let rewardAmount := mulDivCeilQ64 timeDelta emissionsPerSecondX64
        if rewardAmount < U64_CARD then
          .ok ({ rewardInfo with
                  openTime := openTime
                  lastUpdateTime := openTime
                  endTime := endTime
                  emissionsPerSecondX64 := emissionsPerSecondX64 },
               rewardAmount)
        else .error .panicAbort
    else .error .panicAbort
  else
    -- reward emission is still ongoing
    -- let left_reward_time = reward_info.end_time.checked_sub(current_timestamp).unwrap()
    if currentTimestamp ≤ rewardInfo.endTime then
      let leftRewardTime := rewardInfo.endTime - currentTimestamp
      -- let extend_period = end_time.checked_sub(reward_info.end_time).unwrap()
      if rewardInfo.endTime ≤ endTime then
        let extendPeriod := endTime - rewardInfo.endTime
        if extendPeriod < reward_period_limit.MIN_REWARD_PERIOD
            ∨ extendPeriod > reward_period_limit.MAX_REWARD_PERIOD then
          .error .notApproveUpdateRewardEmissiones
        else
          -- owner rate decrease only within the grace window:
          -- require_gt!(INCREASE_EMISSIONES_PERIOD, left_reward_time)
          if emissionsPerSecondX64 < rewardInfo.emissionsPerSecondX64
              ∧ ¬ reward_period_limit.INCREASE_EMISSIONES_PERIOD > leftRewardTime then
            .error .rateDecreaseTooEarly
          else
            -- u128 saturating_sub
            let emissionDiffX64 :=
              emissionsPerSecondX64 - rewardInfo.emissionsPerSecondX64
            let rewardAmount := mulDivFloorQ64 leftRewardTime emissionDiffX64
            if rewardAmount < U64_CARD then
              let rewardInfo1 :=
                { rewardInfo with emissionsPerSecondX64 := emissionsPerSecondX64 }
              if extendPeriod > 0 then
                let rewardAmountDiff :=
                  mulDivFloorQ64 extendPeriod rewardInfo1.emissionsPerSecondX64
                if rewardAmountDiff < U64_CARD then
                  -- reward_amount.checked_add(reward_amount_diff).unwrap()
                  if rewardAmount + rewardAmountDiff < U64_CARD then
                    .ok ({ rewardInfo1 with endTime := endTime },
                         rewardAmount + rewardAmountDiff)
                  else .error .panicAbort
                else .error .panicAbort
              else
                .ok (rewardInfo1, rewardAmount)
            else .error .panicAbort
      else .error .panicAbort
    else .error .panicAbort

/-- `admin_update` (`set_reward_params.rs`, lines 239–314): the privileged
rule (same rendering conventions as `normal_update`). -/
def admin_update (rewardInfo : RewardInfo) (currentTimestamp : Nat)
    (emissionsPerSecondX64 : Nat) (openTime endTime : Nat) :
    Except Err (RewardInfo × Nat) :=
  if rewardInfo.lastUpdateTime = rewardInfo.endTime
      ∨ rewardInfo.openTime > currentTimestamp then
    -- reward emission has finished, or the schedule has not started yet
    if openTime ≤ endTime then
      let timeDelta := endTime - openTime
      if timeDelta = 0 then
        .error .invalidRewardPeriod
      else
        let rewardAmount := mulDivCeilQ64 timeDelta emissionsPerSecondX64
        if rewardAmount < U64_CARD then
          .ok ({ rewardInfo with
                  openTime := openTime
                  lastUpdateTime := openTime
                  endTime := endTime
                  emissionsPerSecondX64 := emissionsPerSecondX64 },
               rewardAmount)
        else .error .panicAbort
    else .error .panicAbort
  else
    -- reward emission is still ongoing
    if currentTimestamp ≤ rewardInfo.endTime then
      let leftRewardTime := rewardInfo.endTime - currentTimestamp
      -- let extend_period = end_time.saturating_sub(reward_info.end_time):
      -- truncated Nat subtraction is exactly u64 saturating_sub
      let extendPeriod := endTime - rewardInfo.endTime
      let emissionDiffX64 :=
        emissionsPerSecondX64 - rewardInfo.emissionsPerSecondX64
      let rewardAmount := mulDivFloorQ64 leftRewardTime emissionDiffX64
      if rewardAmount < U64_CARD then
        let rewardInfo1 :=
          { rewardInfo with emissionsPerSecondX64 := emissionsPerSecondX64 }
        let rewardAmountDiff :=
          mulDivFloorQ64 extendPeriod rewardInfo1.emissionsPerSecondX64
        if rewardAmountDiff < U64_CARD then
          if rewardAmount + rewardAmountDiff < U64_CARD then
            .ok ({ rewardInfo1 with endTime := endTime },
                 rewardAmount + rewardAmountDiff)
          else .error .panicAbort
        else .error .panicAbort
      else .error .panicAbort
    else .error .panicAbort

/-- A token account as the vault/mint checks observe it: its address and its
mint. -/
structure TokenAccountInfo where
  key : Pubkey
  mint : Pubkey
deriving DecidableEq, Repr

/-- The three remaining accounts read only when the funding amount is
positive: the slot's token vault, the caller's funding account, and the
reward mint. -/
structure RemainingAccounts where
  rewardTokenVault : TokenAccountInfo
  authorityTokenAccount : TokenAccountInfo
  rewardVaultMint : Pubkey
deriving DecidableEq, Repr

/-- The rule-selection step of `set_reward_params` (lines 89–110): the
privilege class alone decides which update rule runs; an owner caller is
additionally rejected (`ErrorCode::NotApproved`) when
`current_timestamp <= open_time` on the stored slot. -/
def applyUpdateRule (adminOperator : Bool) (rewardInfo : RewardInfo)
    (currentTimestamp : Nat) (emissionsPerSecondX64 : Nat) (openTime endTime : Nat) :
    Except Err (RewardInfo × Nat) :=
  if adminOperator then
    admin_update rewardInfo currentTimestamp emissionsPerSecondX64 openTime endTime
  else if currentTimestamp ≤ rewardInfo.openTime then
    .error .notApproved
  else
    normal_update rewardInfo currentTimestamp emissionsPerSecondX64 openTime endTime

/-- The remainder of `set_reward_params` once the caller is authorized
(`set_reward_params.rs`, lines 77–144): settle the slots, select the update
rule by the privilege class alone, write the slot back, and — only for a
positive amount — check the vault accounts and transfer. -/
def processAuthorized (adminOperator : Bool) (poolState : PoolState)
    (currentTimestamp : Nat) (rewardIndex : Nat)
    (emissionsPerSecondX64 : Nat) (openTime endTime : Nat)
    (remainingAccounts : Option RemainingAccounts) :
    Except Err (PoolState × Nat) :=
  let pool1 := poolState.update_reward_infos currentTimestamp
  if hidx : rewardIndex < pool1.rewardInfos.length then
    let rewardInfo := pool1.rewardInfos.get ⟨rewardIndex, hidx⟩
    if ¬ rewardInfo.isInitialized then .error .unInitializedRewardInfo
    else
      match applyUpdateRule adminOperator rewardInfo currentTimestamp
          emissionsPerSecondX64 openTime endTime with
      | .error e => .error e
      | .ok (rewardInfo1, rewardAmount) =>
        let pool2 :=
          { pool1 with rewardInfos := pool1.rewardInfos.set rewardIndex rewardInfo1 }
        if rewardAmount > 0 then
          match remainingAccounts with
          | none => .error .panicAbort
          | some accs =>
            if accs.rewardTokenVault.mint ≠ accs.authorityTokenAccount.mint then
              .error .vaultMintMismatch
            else if accs.rewardTokenVault.key ≠ rewardInfo1.tokenVault then
              .error .vaultKeyMismatch
            else
              .ok (pool2, rewardAmount)
        else
          .ok (pool2, rewardAmount)
  else .error .panicAbort

/-- `set_reward_params` (`set_reward_params.rs`, lines 41–145). Returns the
pool state as staged for commit together with the funding amount moved into
the vault, or the abort cause. The token transfer itself is an external
collaborator; its amount is the second component, and it is preceded by the
vault/mint checks exactly as in the source. -/
def set_reward_params (operationOwners : List Pubkey) (authority : Pubkey)
    (poolState : PoolState) (currentTimestamp : Nat)
    (rewardIndex : Nat) (emissionsPerSecondX64 : Nat) (openTime endTime : Nat)
    (remainingAccounts : Option RemainingAccounts) :
    Except Err (PoolState × Nat) :=
  if ¬ rewardIndex < REWARD_NUM then .error .panicAbort
  else if ¬ endTime > openTime then .error .endNotAfterOpen
  else if ¬ emissionsPerSecondX64 > 0 then .error .zeroEmissionRate
  else
    let adminOperator :=
      operationOwners.contains authority && authority ≠ PUBKEY_DEFAULT
    if ¬ openTime > currentTimestamp then .error .openNotAfterNow
    else if ¬ adminOperator ∧ authority ≠ poolState.owner then .error .notPoolOwner
    else
      processAuthorized adminOperator poolState currentTimestamp rewardIndex
        emissionsPerSecondX64 openTime endTime remainingAccounts

/-- The committed effect of one `SetRewardParams` instruction: the hosting
runtime commits account mutations and the transfer only when the instruction
returns success, and discards everything on an abort, so an aborting request
commits the entry pool with no transfer. -/
def committedOutcome (operationOwners : List Pubkey) (authority : Pubkey)
    (poolState : PoolState) (currentTimestamp : Nat)
    (rewardIndex : Nat) (emissionsPerSecondX64 : Nat) (openTime endTime : Nat)
    (remainingAccounts : Option RemainingAccounts) : PoolState × Nat :=
  match set_reward_params operationOwners authority poolState currentTimestamp
      rewardIndex emissionsPerSecondX64 openTime endTime remainingAccounts with
  | .ok r => r
  | .error _ => (poolState, 0)

/-! ## Helper lemmas: branch characterizations of the two update rules -/

theorem mul_div_ceil_q64 (a b : Nat) :
    mul_div_ceil a b fixed_point_64.Q64 = some (mulDivCeilQ64 a b) := by
  unfold mul_div_ceil mulDivCeilQ64 fixed_point_64.Q64
  norm_num

theorem mul_div_floor_q64 (a b : Nat) :
    mul_div_floor a b fixed_point_64.Q64 = some (mulDivFloorQ64 a b) := by
  unfold mul_div_floor mulDivFloorQ64 fixed_point_64.Q64
  norm_num

/-- Success inversion for the owner rule's fresh-schedule branch. -/
theorem normal_update_fresh_ok {ri : RewardInfo} {now rate ot et : Nat}
    {ri' : RewardInfo} {amt : Nat}
    (hfin : ri.lastUpdateTime = ri.endTime)
    (h : normal_update ri now rate ot et = .ok (ri', amt)) :
    ot ≤ et ∧
    reward_period_limit.MIN_REWARD_PERIOD ≤ et - ot ∧
    et - ot ≤ reward_period_limit.MAX_REWARD_PERIOD ∧
    amt = mulDivCeilQ64 (et - ot) rate ∧
    amt < U64_CARD ∧
    ri' = { ri with openTime := ot, lastUpdateTime := ot, endTime := et,
                    emissionsPerSecondX64 := rate } := by
  unfold normal_update at h
  rw [if_pos hfin] at h
  split at h
  case isFalse => cases h
  case isTrue hle =>
    dsimp only at h
    split at h
    case isTrue => cases h
    case isFalse hrange =>
      split at h
      case isFalse => cases h
      case isTrue hfit =>
        cases h
        exact ⟨hle, by omega, by omega, rfl, hfit, rfl⟩

/-- Success inversion for the privileged rule's fresh-schedule branch. -/
theorem admin_update_fresh_ok {ri : RewardInfo} {now rate ot et : Nat}
    {ri' : RewardInfo} {amt : Nat}
    (hfresh : ri.lastUpdateTime = ri.endTime ∨ ri.openTime > now)
    (h : admin_update ri now rate ot et = .ok (ri', amt)) :
    ot < et ∧
    amt = mulDivCeilQ64 (et - ot) rate ∧
    amt < U64_CARD ∧
    ri' = { ri with openTime := ot, lastUpdateTime := ot, endTime := et,
                    emissionsPerSecondX64 := rate } := by
  unfold admin_update at h
  rw [if_pos hfresh] at h
  split at h
  case isFalse => cases h
  case isTrue hle =>
    dsimp only at h
    split at h
    case isTrue => cases h
    case isFalse hzero =>
      split at h
      case isFalse => cases h
      case isTrue hfit =>
        cases h
        exact ⟨by omega, rfl, hfit, rfl⟩

/-- Success inversion for the owner rule's still-active branch. -/
theorem normal_update_active_ok {ri : RewardInfo} {now rate ot et : Nat}
    {ri' : RewardInfo} {amt : Nat}
    (hact : ¬ ri.lastUpdateTime = ri.endTime)
    (h : normal_update ri now rate ot et = .ok (ri', amt)) :
    now ≤ ri.endTime ∧
    ri.endTime ≤ et ∧
    reward_period_limit.MIN_REWARD_PERIOD ≤ et - ri.endTime ∧
    et - ri.endTime ≤ reward_period_limit.MAX_REWARD_PERIOD ∧
    ¬ (rate < ri.emissionsPerSecondX64 ∧
        reward_period_limit.INCREASE_EMISSIONES_PERIOD ≤ ri.endTime - now) ∧
    amt = mulDivFloorQ64 (ri.endTime - now) (rate - ri.emissionsPerSecondX64) +
          (if 0 < et - ri.endTime
            then mulDivFloorQ64 (et - ri.endTime) rate else 0) ∧
    amt < U64_CARD ∧
    ri' = (if 0 < et - ri.endTime
            then { ri with emissionsPerSecondX64 := rate, endTime := et }
            else { ri with emissionsPerSecondX64 := rate }) := by
  unfold normal_update at h
  rw [if_neg hact] at h
  split at h
  case isFalse => cases h
  case isTrue hnow =>
    dsimp only at h
    split at h
    case isFalse => cases h
    case isTrue hext =>
      split at h
      case isTrue => cases h
      case isFalse hrange =>
        split at h
        case isTrue => cases h
        case isFalse hguard =>
          split at h
          case isFalse => cases h
          case isTrue hfit1 =>
            split at h
            case isTrue hpos =>
              split at h
              case isFalse => cases h
              case isTrue hfit2 =>
                split at h
                case isFalse => cases h
                case isTrue hfit3 =>
                  cases h
                  refine ⟨hnow, hext, by omega, by omega, by omega, ?_, hfit3, ?_⟩
                  · rw [if_pos hpos]
                  · rw [if_pos hpos]
            case isFalse hpos =>
              cases h
              refine ⟨hnow, hext, by omega, by omega, by omega, ?_, hfit1, ?_⟩
              · rw [if_neg hpos, Nat.add_zero]
              · rw [if_neg hpos]

/-- Success inversion for the privileged rule's still-active branch. -/
theorem admin_update_active_ok {ri : RewardInfo} {now rate ot et : Nat}
    {ri' : RewardInfo} {amt : Nat}
    (hact : ¬ (ri.lastUpdateTime = ri.endTime ∨ ri.openTime > now))
    (h : admin_update ri now rate ot et = .ok (ri', amt)) :
    now ≤ ri.endTime ∧
    amt = mulDivFloorQ64 (ri.endTime - now) (rate - ri.emissionsPerSecondX64) +
          mulDivFloorQ64 (et - ri.endTime) rate ∧
    amt < U64_CARD ∧
    ri' = { ri with emissionsPerSecondX64 := rate, endTime := et } := by
  unfold admin_update at h
  rw [if_neg hact] at h
  split at h
  case isFalse => cases h
  case isTrue hnow =>
    dsimp only at h
    split at h
    case isFalse => cases h
    case isTrue hfit1 =>
      split at h
      case isFalse => cases h
      case isTrue hfit2 =>
        split at h
        case isFalse => cases h
        case isTrue hfit3 =>
          cases h
          exact ⟨hnow, rfl, hfit3, rfl⟩

/-- Owner fresh branch: an out-of-bounds window is rejected with
`InvalidRewardPeriod` (given the pre-checked `open_time ≤ end_time`). -/
theorem normal_update_fresh_err_period {ri : RewardInfo} {now rate ot et : Nat}
    (hfin : ri.lastUpdateTime = ri.endTime)
    (hle : ot ≤ et)
    (hrange : et - ot < reward_period_limit.MIN_REWARD_PERIOD
        ∨ et - ot > reward_period_limit.MAX_REWARD_PERIOD) :
    normal_update ri now rate ot et = .error .invalidRewardPeriod := by
  unfold normal_update
  rw [if_pos hfin, if_pos hle]
  dsimp only
  rw [if_pos hrange]

/-- Owner active branch: an out-of-bounds extension is rejected with the
`NotApproveUpdateRewardEmissiones` code (the spec's InvalidExtension). -/
theorem normal_update_active_err_extension {ri : RewardInfo} {now rate ot et : Nat}
    (hact : ¬ ri.lastUpdateTime = ri.endTime)
    (hnow : now ≤ ri.endTime)
    (hext : ri.endTime ≤ et)
    (hrange : et - ri.endTime < reward_period_limit.MIN_REWARD_PERIOD
        ∨ et - ri.endTime > reward_period_limit.MAX_REWARD_PERIOD) :
    normal_update ri now rate ot et = .error .notApproveUpdateRewardEmissiones := by
  unfold normal_update
  rw [if_neg hact, if_pos hnow]
  dsimp only
  rw [if_pos hext, if_pos hrange]

/-- Owner active branch: a requested `end_time` strictly before the stored
one underflows the `checked_sub` and the instruction aborts with a panic,
not with the extension error. -/
theorem normal_update_active_err_shrink {ri : RewardInfo} {now rate ot et : Nat}
    (hact : ¬ ri.lastUpdateTime = ri.endTime)
    (hnow : now ≤ ri.endTime)
    (hlt : et < ri.endTime) :
    normal_update ri now rate ot et = .error .panicAbort := by
  unfold normal_update
  rw [if_neg hact, if_pos hnow]
  dsimp only
  rw [if_neg (by omega)]

/-- Owner active branch: with a valid extension, a rate decrease outside the
grace window is rejected with the rate-decrease guard's error. -/
theorem normal_update_active_err_rate {ri : RewardInfo} {now rate ot et : Nat}
    (hact : ¬ ri.lastUpdateTime = ri.endTime)
    (hnow : now ≤ ri.endTime)
    (hext : ri.endTime ≤ et)
    (hrange : ¬ (et - ri.endTime < reward_period_limit.MIN_REWARD_PERIOD
        ∨ et - ri.endTime > reward_period_limit.MAX_REWARD_PERIOD))
    (hdec : rate < ri.emissionsPerSecondX64)
    (hfar : reward_period_limit.INCREASE_EMISSIONES_PERIOD ≤ ri.endTime - now) :
    normal_update ri now rate ot et = .error .rateDecreaseTooEarly := by
  unfold normal_update
  rw [if_neg hact, if_pos hnow]
  dsimp only
  rw [if_pos hext, if_neg hrange, if_pos (by exact ⟨hdec, by omega⟩)]

/-- The owner rule raises the rate-decrease error only when the requested
rate is lower than the stored one and the remaining time is at least the
grace window. -/
theorem normal_update_rate_err_inv {ri : RewardInfo} {now rate ot et : Nat}
    (h : normal_update ri now rate ot et = .error .rateDecreaseTooEarly) :
    rate < ri.emissionsPerSecondX64 ∧
    reward_period_limit.INCREASE_EMISSIONES_PERIOD ≤ ri.endTime - now := by
  unfold normal_update at h
  split at h
  · split at h
    · dsimp only at h
      split at h
      · cases h
      · split at h
        · cases h
        · cases h
    · cases h
  · split at h
    · dsimp only at h
      split at h
      · split at h
        · cases h
        · split at h
          case isTrue hg => exact ⟨hg.1, by omega⟩
          case isFalse =>
            split at h
            · split at h
              · split at h
                · split at h <;> cases h
                · cases h
              · cases h
            · cases h
      · cases h
    · cases h

/-- Every abort of the privileged rule is either a panic or the zero-length
window rejection: the privileged rule never raises the extension bound or
the rate-decrease guard. -/
theorem admin_update_err_classification {ri : RewardInfo} {now rate ot et : Nat}
    {e : Err} (h : admin_update ri now rate ot et = .error e) :
    e = .panicAbort ∨ e = .invalidRewardPeriod := by
  unfold admin_update at h
  split at h
  · split at h
    · dsimp only at h
      split at h
      · cases h; right; rfl
      · split at h
        · cases h
        · cases h; left; rfl
    · cases h; left; rfl
  · split at h
    · dsimp only at h
      split at h
      · split at h
        · split at h
          · cases h
          · cases h; left; rfl
        · cases h; left; rfl
      · cases h; left; rfl
    · cases h; left; rfl

/-- The privileged rule rejects with `InvalidRewardPeriod` only a zero-length
window (`end_time = open_time`). -/
theorem admin_update_period_err_inv {ri : RewardInfo} {now rate ot et : Nat}
    (h : admin_update ri now rate ot et = .error .invalidRewardPeriod) :
    et = ot := by
  unfold admin_update at h
  split at h
  · split at h
    case isTrue hle =>
      dsimp only at h
      split at h
      case isTrue hz => omega
      case isFalse =>
        split at h
        · cases h
        · cases h
    · cases h
  · split at h
    · dsimp only at h
      split at h
      · split at h
        · split at h
          · cases h
          · cases h
        · cases h
      · cases h
    · cases h

/-- The owner rule's abort causes: panic, window bound, extension bound, or
the rate-decrease guard — in particular never the not-yet-open gate's
`NotApproved`, which is raised before the rule runs. -/
theorem normal_update_err_classification {ri : RewardInfo}
    {now rate ot et : Nat} {e : Err}
    (h : normal_update ri now rate ot et = .error e) :
    e = .panicAbort ∨ e = .invalidRewardPeriod ∨
    e = .notApproveUpdateRewardEmissiones ∨ e = .rateDecreaseTooEarly := by
  unfold normal_update at h
  split at h
  · split at h
    · dsimp only at h
      split at h
      · cases h; right; left; rfl
      · split at h
        · cases h
        · cases h; left; rfl
    · cases h; left; rfl
  · split at h
    · dsimp only at h
      split at h
      · split at h
        · cases h; right; right; left; rfl
        · split at h
          · cases h; right; right; right; rfl
          · split at h
            · split at h
              · split at h
                · split at h
                  · cases h
                  · cases h; left; rfl
                · cases h; left; rfl
              · cases h
            · cases h; left; rfl
      · cases h; left; rfl
    · cases h; left; rfl

/-! ## Claim theorems -/

/-- C1: every reward slot taken through the fresh-schedule branch (owner
caller with `last_update_time = end_time`, or privileged caller with
`last_update_time = end_time` or `open_time > now`) on success computes a
funding amount exactly `⌈(end_time − open_time) · rate / 2^64⌉` and replaces
the slot's `open_time`, `last_update_time` (both to the new `open_time`),
`end_time` and rate. -/
theorem C1_fresh_schedule_funding (ri : RewardInfo) (now rate ot et : Nat)
    (ri' : RewardInfo) (amt : Nat)
    (h : (ri.lastUpdateTime = ri.endTime ∧
            normal_update ri now rate ot et = .ok (ri', amt)) ∨
         ((ri.lastUpdateTime = ri.endTime ∨ ri.openTime > now) ∧
            admin_update ri now rate ot et = .ok (ri', amt))) :
    amt = ((et - ot) * rate + 2 ^ 64 - 1) / 2 ^ 64 ∧
    ri'.openTime = ot ∧
    ri'.lastUpdateTime = ot ∧
    ri'.endTime = et ∧
    ri'.emissionsPerSecondX64 = rate := by
  have hceil : ∀ a b : Nat, mulDivCeilQ64 a b = (a * b + 2 ^ 64 - 1) / 2 ^ 64 := by
    intro a b
    unfold mulDivCeilQ64 fixed_point_64.Q64
    congr 1
  rcases h with ⟨hfin, h⟩ | ⟨hfresh, h⟩
  · obtain ⟨hle, _, _, hamt, _, hri⟩ := normal_update_fresh_ok hfin h
    subst hri
    exact ⟨by rw [hamt, hceil], rfl, rfl, rfl, rfl⟩
  · obtain ⟨hlt, hamt, _, hri⟩ := admin_update_fresh_ok hfresh h
    subst hri
    exact ⟨by rw [hamt, hceil], rfl, rfl, rfl, rfl⟩

/-- C1 witness: a finished slot re-scheduled by the owner at one token per
second (rate `2^64`) over a 604800-second window is funded with exactly
604800 tokens and fully replaced. -/
theorem C1_fresh_schedule_funding_witness :
    ((⟨0, 100, 100, 5, 1, 2⟩ : RewardInfo).lastUpdateTime =
        (⟨0, 100, 100, 5, 1, 2⟩ : RewardInfo).endTime ∧
      normal_update ⟨0, 100, 100, 5, 1, 2⟩ 150 (2 ^ 64) 160 604960 =
        .ok (⟨160, 604960, 160, 2 ^ 64, 1, 2⟩, 604800)) ∧
    (604800 = ((604960 - 160) * 2 ^ 64 + 2 ^ 64 - 1) / 2 ^ 64 ∧
      (⟨160, 604960, 160, 2 ^ 64, 1, 2⟩ : RewardInfo).openTime = 160 ∧
      (⟨160, 604960, 160, 2 ^ 64, 1, 2⟩ : RewardInfo).lastUpdateTime = 160 ∧
      (⟨160, 604960, 160, 2 ^ 64, 1, 2⟩ : RewardInfo).endTime = 604960 ∧
      (⟨160, 604960, 160, 2 ^ 64, 1, 2⟩ : RewardInfo).emissionsPerSecondX64 = 2 ^ 64) :=
  ⟨⟨rfl, rfl⟩,
    C1_fresh_schedule_funding ⟨0, 100, 100, 5, 1, 2⟩ 150 (2 ^ 64) 160 604960
      ⟨160, 604960, 160, 2 ^ 64, 1, 2⟩ 604800 (Or.inl ⟨rfl, rfl⟩)⟩

/-- C2: every accepted update on a still-active schedule (either caller
class) is funded with `⌊(old_end − now) · (new_rate ∸ old_rate) / 2^64⌋`
(truncated subtraction is `max(0, new_rate − old_rate)`), plus — exactly
when `extend_period = end_time ∸ old_end` is positive —
`⌊extend_period · new_rate / 2^64⌋`. -/
theorem C2_active_funding (ri : RewardInfo) (now rate ot et : Nat)
    (ri' : RewardInfo) (amt : Nat)
    (h : (¬ ri.lastUpdateTime = ri.endTime ∧
            normal_update ri now rate ot et = .ok (ri', amt)) ∨
         (¬ (ri.lastUpdateTime = ri.endTime ∨ ri.openTime > now) ∧
            admin_update ri now rate ot et = .ok (ri', amt))) :
    amt = (ri.endTime - now) * (rate - ri.emissionsPerSecondX64) / 2 ^ 64 +
          (if 0 < et - ri.endTime then (et - ri.endTime) * rate / 2 ^ 64 else 0) := by
  have hfloor : ∀ a b : Nat, mulDivFloorQ64 a b = a * b / 2 ^ 64 := fun a b => rfl
  rcases h with ⟨hact, h⟩ | ⟨hact, h⟩
  · obtain ⟨_, _, _, _, _, hamt, _, _⟩ := normal_update_active_ok hact h
    rw [hamt, hfloor]
    by_cases hpos : 0 < et - ri.endTime
    · rw [if_pos hpos, if_pos hpos, hfloor]
    · rw [if_neg hpos, if_neg hpos]
  · obtain ⟨_, hamt, _, _⟩ := admin_update_active_ok hact h
    rw [hamt, hfloor, hfloor]
    by_cases hpos : 0 < et - ri.endTime
    · rw [if_pos hpos]
    · rw [if_neg hpos]
      have hz : et - ri.endTime = 0 := by omega
      rw [hz, Nat.zero_mul, Nat.zero_div]

/-- C2 witness: an active slot (end 1000, rate `2^64`) updated at `now = 400`
to double the rate and extend to 605800 is funded with
`⌊600·2^64/2^64⌋ + ⌊604800·2·2^64/2^64⌋ = 600 + 1209600`. -/
theorem C2_active_funding_witness :
    (¬ (⟨10, 1000, 400, 2 ^ 64, 1, 2⟩ : RewardInfo).lastUpdateTime =
        (⟨10, 1000, 400, 2 ^ 64, 1, 2⟩ : RewardInfo).endTime ∧
      normal_update ⟨10, 1000, 400, 2 ^ 64, 1, 2⟩ 400 (2 * 2 ^ 64) 500 605800 =
        .ok (⟨10, 605800, 400, 2 * 2 ^ 64, 1, 2⟩, 1210200)) ∧
    1210200 = (1000 - 400) * (2 * 2 ^ 64 - 2 ^ 64) / 2 ^ 64 +
              (if 0 < 605800 - 1000 then (605800 - 1000) * (2 * 2 ^ 64) / 2 ^ 64 else 0) :=
  ⟨⟨by decide, rfl⟩,
    C2_active_funding ⟨10, 1000, 400, 2 ^ 64, 1, 2⟩ 400 (2 * 2 ^ 64) 500 605800
      ⟨10, 605800, 400, 2 * 2 ^ 64, 1, 2⟩ 1210200 (Or.inl ⟨by decide, rfl⟩)⟩

/-- C7: a privileged update on a still-active schedule with requested
`end_time ≤` stored `end_time` has `extend_period = 0` (saturating
subtraction), is charged only `⌊(old_end − now) · (new_rate ∸ old_rate) /
2^64⌋`, and still replaces the stored `end_time` by the shorter requested
one — there is no refund path, the charge is exactly that single term. -/
theorem C7_admin_shrink (ri : RewardInfo) (now rate ot et : Nat)
    (ri' : RewardInfo) (amt : Nat)
    (hact : ¬ (ri.lastUpdateTime = ri.endTime ∨ ri.openTime > now))
    (hshrink : et ≤ ri.endTime)
    (h : admin_update ri now rate ot et = .ok (ri', amt)) :
    et - ri.endTime = 0 ∧
    amt = (ri.endTime - now) * (rate - ri.emissionsPerSecondX64) / 2 ^ 64 ∧
    ri'.endTime = et ∧
    ri'.openTime = ri.openTime ∧
    ri'.lastUpdateTime = ri.lastUpdateTime ∧
    ri'.tokenVault = ri.tokenVault := by
  obtain ⟨hnow, hamt, _, hri⟩ := admin_update_active_ok hact h
  have hz : et - ri.endTime = 0 := by omega
  subst hri
  refine ⟨hz, ?_, rfl, rfl, rfl, rfl⟩
  rw [hamt, hz]
  have : mulDivFloorQ64 0 rate = 0 := by
    unfold mulDivFloorQ64
    rw [Nat.zero_mul, Nat.zero_div]
  rw [this, Nat.add_zero]
  rfl

/-- C7 witness: shrinking an active schedule (end 1000) to end 900 at
`now = 400` with the rate halved charges `⌊600 · 0 / 2^64⌋ = 0` and stores
`end_time = 900`. -/
theorem C7_admin_shrink_witness :
    (¬ ((⟨10, 1000, 400, 2 ^ 64, 1, 2⟩ : RewardInfo).lastUpdateTime =
          (⟨10, 1000, 400, 2 ^ 64, 1, 2⟩ : RewardInfo).endTime ∨
        (⟨10, 1000, 400, 2 ^ 64, 1, 2⟩ : RewardInfo).openTime > 400)) ∧
    900 ≤ 1000 ∧
    (admin_update ⟨10, 1000, 400, 2 ^ 64, 1, 2⟩ 400 (2 ^ 63) 500 900 =
      .ok (⟨10, 900, 400, 2 ^ 63, 1, 2⟩, 0)) ∧
    (900 - 1000 = 0 ∧
      0 = (1000 - 400) * (2 ^ 63 - 2 ^ 64) / 2 ^ 64 ∧
      (⟨10, 900, 400, 2 ^ 63, 1, 2⟩ : RewardInfo).endTime = 900 ∧
      (⟨10, 900, 400, 2 ^ 63, 1, 2⟩ : RewardInfo).openTime = 10 ∧
      (⟨10, 900, 400, 2 ^ 63, 1, 2⟩ : RewardInfo).lastUpdateTime = 400 ∧
      (⟨10, 900, 400, 2 ^ 63, 1, 2⟩ : RewardInfo).tokenVault = 2) :=
  ⟨by decide, by decide, rfl,
    C7_admin_shrink ⟨10, 1000, 400, 2 ^ 64, 1, 2⟩ 400 (2 ^ 63) 500 900
      ⟨10, 900, 400, 2 ^ 63, 1, 2⟩ 0 (by decide) (by decide) rfl⟩

/-- C10: a successful still-active update (either caller class) modifies only
the slot's rate and `end_time`: `open_time`, `last_update_time` (past the
settle step performed before the rule) and the vault/mint identifiers are
unchanged, and the requested `open_time` argument has no effect on the
still-active branch at all. -/
theorem C10_active_frame (ri : RewardInfo) (now rate ot otAlt et : Nat)
    (ri' : RewardInfo) (amt : Nat) :
    (((¬ ri.lastUpdateTime = ri.endTime ∧
          normal_update ri now rate ot et = .ok (ri', amt)) ∨
       (¬ (ri.lastUpdateTime = ri.endTime ∨ ri.openTime > now) ∧
          admin_update ri now rate ot et = .ok (ri', amt))) →
      ri'.openTime = ri.openTime ∧
      ri'.lastUpdateTime = ri.lastUpdateTime ∧
      ri'.tokenVault = ri.tokenVault ∧
      ri'.tokenMint = ri.tokenMint ∧
      ri'.emissionsPerSecondX64 = rate ∧
      (ri'.endTime = et ∨ ri'.endTime = ri.endTime)) ∧
    (¬ ri.lastUpdateTime = ri.endTime →
      normal_update ri now rate ot et = normal_update ri now rate otAlt et) ∧
    (¬ (ri.lastUpdateTime = ri.endTime ∨ ri.openTime > now) →
      admin_update ri now rate ot et = admin_update ri now rate otAlt et) := by
  refine ⟨?_, ?_, ?_⟩
  · intro h
    rcases h with ⟨hact, h⟩ | ⟨hact, h⟩
    · obtain ⟨_, _, _, _, _, _, _, hri⟩ := normal_update_active_ok hact h
      by_cases hpos : 0 < et - ri.endTime
      · rw [if_pos hpos] at hri
        subst hri
        exact ⟨rfl, rfl, rfl, rfl, rfl, Or.inl rfl⟩
      · rw [if_neg hpos] at hri
        subst hri
        exact ⟨rfl, rfl, rfl, rfl, rfl, Or.inr rfl⟩
    · obtain ⟨_, _, _, hri⟩ := admin_update_active_ok hact h
      subst hri
      exact ⟨rfl, rfl, rfl, rfl, rfl, Or.inl rfl⟩
  · intro hact
    unfold normal_update
    rw [if_neg hact, if_neg hact]
  · intro hact
    unfold admin_update
    rw [if_neg hact, if_neg hact]

/-- C10 witness: the active-branch frame at a concrete owner extension, and
open-time irrelevance at two different requested open times. -/
theorem C10_active_frame_witness :
    ((⟨10, 1000, 400, 2 ^ 64, 1, 2⟩ : RewardInfo).openTime = 10 ∧
      (⟨10, 1000, 400, 2 ^ 64, 1, 2⟩ : RewardInfo).lastUpdateTime = 400 ∧
      (⟨10, 1000, 400, 2 ^ 64, 1, 2⟩ : RewardInfo).tokenVault = 2 ∧
      (⟨10, 1000, 400, 2 ^ 64, 1, 2⟩ : RewardInfo).tokenMint = 1 ∧
      True) ∧
    normal_update ⟨10, 1000, 400, 2 ^ 64, 1, 2⟩ 400 (2 ^ 64) 500 605800 =
      normal_update ⟨10, 1000, 400, 2 ^ 64, 1, 2⟩ 400 (2 ^ 64) 777 605800 :=
  ⟨⟨rfl, rfl, rfl, rfl, trivial⟩,
    (C10_active_frame ⟨10, 1000, 400, 2 ^ 64, 1, 2⟩ 400 (2 ^ 64) 500 777 605800
        ⟨10, 605800, 400, 2 ^ 64, 1, 2⟩ 604800).2.1 (by decide)⟩

/-- C3 (amended): for owner fresh schedules acceptance requires
`MIN ≤ end − open ≤ MAX`, with `InvalidRewardPeriod` otherwise; for owner
still-active updates acceptance requires `old_end ≤ end` and
`MIN ≤ end − old_end ≤ MAX`, the out-of-bounds extension failing with the
extension error when `old_end ≤ end` and with an arithmetic panic abort
(checked-subtraction underflow), not the extension error, when
`end < old_end`; a privileged fresh schedule is rejected with the period
error only for a zero-length window, and the privileged active branch never
raises the extension error. -/
theorem C3_window_guards (ri : RewardInfo) (now rate ot et : Nat) :
    (ri.lastUpdateTime = ri.endTime → ot ≤ et →
      ((∃ r, normal_update ri now rate ot et = .ok r) →
          reward_period_limit.MIN_REWARD_PERIOD ≤ et - ot ∧
          et - ot ≤ reward_period_limit.MAX_REWARD_PERIOD) ∧
      ((et - ot < reward_period_limit.MIN_REWARD_PERIOD
          ∨ et - ot > reward_period_limit.MAX_REWARD_PERIOD) →
        normal_update ri now rate ot et = .error .invalidRewardPeriod)) ∧
    (¬ ri.lastUpdateTime = ri.endTime → now ≤ ri.endTime →
      ((∃ r, normal_update ri now rate ot et = .ok r) →
          ri.endTime ≤ et ∧
          reward_period_limit.MIN_REWARD_PERIOD ≤ et - ri.endTime ∧
          et - ri.endTime ≤ reward_period_limit.MAX_REWARD_PERIOD) ∧
      (ri.endTime ≤ et →
        (et - ri.endTime < reward_period_limit.MIN_REWARD_PERIOD
            ∨ et - ri.endTime > reward_period_limit.MAX_REWARD_PERIOD) →
        normal_update ri now rate ot et = .error .notApproveUpdateRewardEmissiones) ∧
      (et < ri.endTime →
        normal_update ri now rate ot et = .error .panicAbort)) ∧
    (admin_update ri now rate ot et = .error .invalidRewardPeriod → et = ot) ∧
    (admin_update ri now rate ot et ≠ .error .notApproveUpdateRewardEmissiones) := by
  refine ⟨fun hfin hle => ⟨?_, ?_⟩, fun hact hnow => ⟨?_, ?_, ?_⟩, ?_, ?_⟩
  · rintro ⟨⟨ri', amt⟩, h⟩
    obtain ⟨_, h1, h2, _⟩ := normal_update_fresh_ok hfin h
    exact ⟨h1, h2⟩
  · intro hrange
    exact normal_update_fresh_err_period hfin hle hrange
  · rintro ⟨⟨ri', amt⟩, h⟩
    obtain ⟨_, h1, h2, h3, _⟩ := normal_update_active_ok hact h
    exact ⟨h1, h2, h3⟩
  · intro hext hrange
    exact normal_update_active_err_extension hact hnow hext hrange
  · intro hlt
    exact normal_update_active_err_shrink hact hnow hlt
  · intro h
    exact admin_update_period_err_inv h
  · intro h
    rcases admin_update_err_classification h with h1 | h1 <;> cases h1

/-- C3 counterexample: an owner-classified active update requesting
`end_time = 900` on a slot whose stored `end_time` is 1000 — the extension
is outside `[MIN, MAX]`, yet the request aborts with the checked-subtraction
panic, not with the extension error the claim names. -/
theorem C3_window_guards_cex :
    normal_update ⟨10, 1000, 400, 2 ^ 64, 1, 2⟩ 400 (2 ^ 64) 500 900 =
      .error .panicAbort ∧
    Err.panicAbort ≠ Err.notApproveUpdateRewardEmissiones :=
  ⟨rfl, by decide⟩

/-- C3 witness: a 10-second extension (below `MIN_REWARD_PERIOD`) requested
by an owner on an active schedule is rejected with the extension error. -/
theorem C3_window_guards_witness :
    normal_update ⟨10, 1000, 400, 2 ^ 64, 1, 2⟩ 400 (2 ^ 64) 500 1010 =
      .error .notApproveUpdateRewardEmissiones :=
  ((C3_window_guards ⟨10, 1000, 400, 2 ^ 64, 1, 2⟩ 400 (2 ^ 64) 500 1010).2.1
      (by decide) (by decide)).2.1 (by decide) (by decide)

/-- C4: an owner-classified rate decrease on a still-active schedule (with a
valid extension, so that the later guard is reached) is rejected with the
rate-decrease error whenever the remaining time is at least the grace
window; the rate-decrease error can only arise from a decrease with at
least the grace window remaining; and the privileged rule never raises it. -/
theorem C4_rate_decrease_guard (ri : RewardInfo) (now rate ot et : Nat) :
    (¬ ri.lastUpdateTime = ri.endTime → now ≤ ri.endTime → ri.endTime ≤ et →
      ¬ (et - ri.endTime < reward_period_limit.MIN_REWARD_PERIOD
          ∨ et - ri.endTime > reward_period_limit.MAX_REWARD_PERIOD) →
      rate < ri.emissionsPerSecondX64 →
      reward_period_limit.INCREASE_EMISSIONES_PERIOD ≤ ri.endTime - now →
      normal_update ri now rate ot et = .error .rateDecreaseTooEarly) ∧
    (normal_update ri now rate ot et = .error .rateDecreaseTooEarly →
      rate < ri.emissionsPerSecondX64 ∧
      reward_period_limit.INCREASE_EMISSIONES_PERIOD ≤ ri.endTime - now) ∧
    (admin_update ri now rate ot et ≠ .error .rateDecreaseTooEarly) := by
  refine ⟨?_, ?_, ?_⟩
  · intro hact hnow hext hrange hdec hfar
    exact normal_update_active_err_rate hact hnow hext hrange hdec hfar
  · intro h
    exact normal_update_rate_err_inv h
  · intro h
    rcases admin_update_err_classification h with h1 | h1 <;> cases h1

/-- C4 witness: an owner halving the rate with 999600 seconds (more than the
72-hour grace window) left on the schedule is rejected with the
rate-decrease error. -/
theorem C4_rate_decrease_guard_witness :
    normal_update ⟨10, 1000000, 400, 2 * 2 ^ 64, 1, 2⟩ 400 (2 ^ 64) 500 1604800 =
      .error .rateDecreaseTooEarly :=
  (C4_rate_decrease_guard ⟨10, 1000000, 400, 2 * 2 ^ 64, 1, 2⟩ 400 (2 ^ 64) 500
      1604800).1 (by decide) (by decide) (by decide) (by decide) (by decide)
    (by decide)

/-- C5: the caller is Privileged iff it is a non-default identity on the
allow-list; otherwise it must equal the stored pool owner (else the request
is rejected as unauthorized); and this classification alone selects which
update rule runs — `processAuthorized` receives only the boolean class, the
privileged class runs `admin_update`, and the owner class runs the
not-yet-open gate followed by `normal_update`. -/
theorem C5_permission_resolver (ops : List Pubkey) (a : Pubkey)
    (pool : PoolState) (now idx rate ot et : Nat)
    (rem : Option RemainingAccounts) :
    (validate_operation_owner ops a = true ↔ a ≠ PUBKEY_DEFAULT ∧ a ∈ ops) ∧
    (idx < REWARD_NUM → ot < et → 0 < rate → now < ot →
      (validate_operation_owner ops a = true →
        set_reward_params ops a pool now idx rate ot et rem =
          processAuthorized true pool now idx rate ot et rem) ∧
      (validate_operation_owner ops a = false → a = pool.owner →
        set_reward_params ops a pool now idx rate ot et rem =
          processAuthorized false pool now idx rate ot et rem) ∧
      (validate_operation_owner ops a = false → a ≠ pool.owner →
        set_reward_params ops a pool now idx rate ot et rem =
          .error .notPoolOwner)) ∧
    (∀ ri : RewardInfo,
      applyUpdateRule true ri now rate ot et = admin_update ri now rate ot et) ∧
    (∀ ri : RewardInfo, ri.openTime < now →
      applyUpdateRule false ri now rate ot et = normal_update ri now rate ot et) ∧
    (∀ ri : RewardInfo, now ≤ ri.openTime →
      applyUpdateRule false ri now rate ot et = .error .notApproved) := by
  have hbridge : (ops.contains a && decide (a ≠ PUBKEY_DEFAULT)) =
      validate_operation_owner ops a := by
    unfold validate_operation_owner
    exact Bool.and_comm _ _
  refine ⟨?_, fun hidx hlt hrate hnow => ?_, fun ri => rfl, fun ri h => ?_, fun ri h => ?_⟩
  · unfold validate_operation_owner
    simp [List.contains, List.elem_eq_mem]
  · unfold set_reward_params
    dsimp only
    rw [if_neg (by omega : ¬ ¬ idx < REWARD_NUM),
        if_neg (by omega : ¬ ¬ et > ot),
        if_neg (by omega : ¬ ¬ rate > 0),
        if_neg (by omega : ¬ ¬ ot > now), hbridge]
    refine ⟨fun hv => ?_, fun hv ho => ?_, fun hv ho => ?_⟩
    · rw [hv, if_neg (by simp)]
    · rw [hv, if_neg (by simp [ho])]
    · rw [hv, if_pos ⟨by simp, ho⟩]
  · unfold applyUpdateRule
    rw [if_neg (by simp), if_neg (by omega)]
  · unfold applyUpdateRule
    rw [if_neg (by simp), if_pos h]

/-- C5 witness: caller 5 on allow-list `[5]` is classified privileged and the
request proceeds through the privileged path of a concrete pool. -/
theorem C5_permission_resolver_witness :
    set_reward_params [5] 5 ⟨7, [⟨10, 1000, 400, 2 ^ 64, 1, 2⟩]⟩ 400 0 (2 ^ 64)
        500 605800 none =
      processAuthorized true ⟨7, [⟨10, 1000, 400, 2 ^ 64, 1, 2⟩]⟩ 400 0 (2 ^ 64)
        500 605800 none :=
  ((C5_permission_resolver [5] 5 ⟨7, [⟨10, 1000, 400, 2 ^ 64, 1, 2⟩]⟩ 400 0
        (2 ^ 64) 500 605800 none).2.1
      (by decide) (by decide) (by decide) (by decide)).1 rfl

/-- C6: a request that terminates in any fault commits the entry pool record
unchanged (every slot, every field) and transfers nothing; the staged pool
mutation and the transfer amount commit together exactly on success. The
all-or-nothing commit of `committedOutcome` is the hosting runtime's
guarantee: an aborted instruction's staged writes are discarded. -/
theorem C6_atomicity (ops : List Pubkey) (a : Pubkey) (pool : PoolState)
    (now idx rate ot et : Nat) (rem : Option RemainingAccounts) :
    (∀ e : Err, set_reward_params ops a pool now idx rate ot et rem = .error e →
      committedOutcome ops a pool now idx rate ot et rem = (pool, 0)) ∧
    (∀ (pool2 : PoolState) (amt : Nat),
      set_reward_params ops a pool now idx rate ot et rem = .ok (pool2, amt) →
      committedOutcome ops a pool now idx rate ot et rem = (pool2, amt)) := by
  constructor
  · intro e h
    unfold committedOutcome
    rw [h]
  · intro p2 amt h
    unfold committedOutcome
    rw [h]

/-- C6 witness: a zero-rate request aborts with the zero-rate fault and
commits the entry pool with no transfer. -/
theorem C6_atomicity_witness :
    set_reward_params [] 7 ⟨7, [⟨10, 1000, 400, 2 ^ 64, 1, 2⟩]⟩ 400 0 0 500
        605800 none = .error .zeroEmissionRate ∧
    committedOutcome [] 7 ⟨7, [⟨10, 1000, 400, 2 ^ 64, 1, 2⟩]⟩ 400 0 0 500
        605800 none = (⟨7, [⟨10, 1000, 400, 2 ^ 64, 1, 2⟩]⟩, 0) :=
  ⟨rfl,
    (C6_atomicity [] 7 ⟨7, [⟨10, 1000, 400, 2 ^ 64, 1, 2⟩]⟩ 400 0 0 500 605800
        none).1 .zeroEmissionRate rfl⟩

/-- C8 (amended): an owner-classified request is rejected with the
not-yet-open error exactly when `now ≤ open_time` on the stored slot — the
source's gate is `current_timestamp <= open_time`, so the boundary instant
`now = open_time` is also rejected, not only `now < open_time` as the claim
states; when `open_time < now` the owner rule runs; and a privileged caller
on a slot with `now < open_time` takes the fresh-schedule full-replacement
branch. -/
theorem C8_not_yet_open_gate (ri : RewardInfo) (now rate ot et : Nat) :
    (applyUpdateRule false ri now rate ot et = .error .notApproved ↔
      now ≤ ri.openTime) ∧
    (ri.openTime < now →
      applyUpdateRule false ri now rate ot et = normal_update ri now rate ot et) ∧
    (now < ri.openTime → ∀ (ri' : RewardInfo) (amt : Nat),
      applyUpdateRule true ri now rate ot et = .ok (ri', amt) →
      ri'.openTime = ot ∧ ri'.lastUpdateTime = ot ∧ ri'.endTime = et ∧
      ri'.emissionsPerSecondX64 = rate) ∧
    (∀ (pool : PoolState) (idx : Nat) (rem : Option RemainingAccounts)
        (hidx : idx < (pool.update_reward_infos now).rewardInfos.length),
      ((pool.update_reward_infos now).rewardInfos.get ⟨idx, hidx⟩).isInitialized = true →
      (processAuthorized false pool now idx rate ot et rem = .error .notApproved ↔
        now ≤ ((pool.update_reward_infos now).rewardInfos.get ⟨idx, hidx⟩).openTime)) := by
  have hgate : ∀ r : RewardInfo, now ≤ r.openTime →
      applyUpdateRule false r now rate ot et = .error .notApproved := by
    intro r h
    unfold applyUpdateRule
    rw [if_neg (by simp), if_pos h]
  have hrun : ∀ r : RewardInfo, ¬ now ≤ r.openTime →
      applyUpdateRule false r now rate ot et = normal_update r now rate ot et := by
    intro r h
    unfold applyUpdateRule
    rw [if_neg (by simp), if_neg h]
  have hiff : ∀ r : RewardInfo,
      applyUpdateRule false r now rate ot et = .error .notApproved ↔
        now ≤ r.openTime := by
    intro r
    constructor
    · intro h
      by_cases hn : now ≤ r.openTime
      · exact hn
      · rw [hrun r hn] at h
        rcases normal_update_err_classification h with h1 | h1 | h1 | h1 <;> cases h1
    · exact hgate r
  refine ⟨hiff ri, fun h => hrun ri (by omega), fun h ri' amt happ => ?_, ?_⟩
  · obtain ⟨_, _, _, hri⟩ := admin_update_fresh_ok (Or.inr h) happ
    subst hri
    exact ⟨rfl, rfl, rfl, rfl⟩
  · intro pool idx rem hidx hinit
    have hgg : (pool.update_reward_infos now).rewardInfos.get ⟨idx, hidx⟩ =
        (pool.update_reward_infos now).rewardInfos[idx] := rfl
    rw [hgg] at hinit
    unfold processAuthorized
    rw [dif_pos hidx]
    dsimp only
    rw [hgg]
    rw [if_neg (by simp [hinit])]
    cases happ : applyUpdateRule false
        ((pool.update_reward_infos now).rewardInfos[idx])
        now rate ot et with
    | error e =>
      constructor
      · intro hh
        have he : e = .notApproved := by simpa using hh
        rw [he] at happ
        exact (hiff _).mp happ
      · intro hn
        have hcontr := (hiff _).mpr hn
        rw [happ] at hcontr
        have he : e = .notApproved := by simpa using hcontr
        rw [he]
    | ok p =>
      obtain ⟨ri1, amtR⟩ := p
      constructor
      · intro hh
        exfalso
        dsimp only at hh
        repeat' split at hh
        all_goals simp at hh
      · intro hn
        have hcontr := (hiff _).mpr hn
        rw [happ] at hcontr
        cases hcontr

/-- C8 counterexample: at the boundary instant `now = open_time = 100`, an
owner request passing every argument pre-check is rejected with the
not-yet-open error even though `now < open_time` is false — the gate is
`now ≤ open_time`, not `now < open_time` as the claim states. -/
theorem C8_not_yet_open_gate_cex :
    set_reward_params [] 7 ⟨7, [⟨100, 200, 150, 2 ^ 64, 1, 2⟩]⟩ 100 0 (2 ^ 64)
        150 604950 none = .error .notApproved ∧
    ¬ (100 < 100) :=
  ⟨rfl, by decide⟩

/-- C8 witness: the boundary rejection and the strict-past acceptance route
at concrete slots. -/
theorem C8_not_yet_open_gate_witness :
    applyUpdateRule false ⟨100, 200, 150, 2 ^ 64, 1, 2⟩ 100 (2 ^ 64) 150 604950 =
      .error .notApproved ∧
    applyUpdateRule false ⟨40, 200, 150, 2 ^ 64, 1, 2⟩ 100 (2 ^ 64) 150 604950 =
      normal_update ⟨40, 200, 150, 2 ^ 64, 1, 2⟩ 100 (2 ^ 64) 150 604950 :=
  ⟨(C8_not_yet_open_gate ⟨100, 200, 150, 2 ^ 64, 1, 2⟩ 100 (2 ^ 64) 150
        604950).1.mpr (by decide),
    (C8_not_yet_open_gate ⟨40, 200, 150, 2 ^ 64, 1, 2⟩ 100 (2 ^ 64) 150
        604950).2.1 (by decide)⟩

/-- Forward characterization: under the argument pre-checks an authorized
request reduces to `processAuthorized` with the caller's computed privilege
class. -/
theorem set_reward_params_eq_processAuthorized {ops : List Pubkey} {a : Pubkey}
    {pool : PoolState} {now idx rate ot et : Nat} {rem : Option RemainingAccounts}
    (hidx : idx < REWARD_NUM) (hlt : ot < et) (hrate : 0 < rate) (hnow : now < ot)
    (hauth : (ops.contains a && decide (a ≠ PUBKEY_DEFAULT)) = true ∨ a = pool.owner) :
    set_reward_params ops a pool now idx rate ot et rem =
      processAuthorized (ops.contains a && decide (a ≠ PUBKEY_DEFAULT))
        pool now idx rate ot et rem := by
  unfold set_reward_params
  dsimp only
  rw [if_neg (by omega : ¬ ¬ idx < REWARD_NUM),
      if_neg (by omega : ¬ ¬ et > ot),
      if_neg (by omega : ¬ ¬ rate > 0),
      if_neg (by omega : ¬ ¬ ot > now)]
  rcases hauth with hb | ho
  · rw [hb, if_neg (by simp)]
  · rw [if_neg (by simp [ho])]

/-- Forward characterization: a failed pre-check or failed authorization
aborts the request. -/
theorem set_reward_params_precheck_fail {ops : List Pubkey} {a : Pubkey}
    {pool : PoolState} {now idx rate ot et : Nat} {rem : Option RemainingAccounts}
    (hfail : ¬ (idx < REWARD_NUM ∧ ot < et ∧ 0 < rate ∧ now < ot ∧
      ((ops.contains a && decide (a ≠ PUBKEY_DEFAULT)) = true ∨ a = pool.owner))) :
    ∃ e : Err, set_reward_params ops a pool now idx rate ot et rem = .error e := by
  by_cases h1 : idx < REWARD_NUM
  case neg =>
    refine ⟨.panicAbort, ?_⟩
    unfold set_reward_params
    rw [if_pos h1]
  case pos =>
  by_cases h2 : ot < et
  case neg =>
    refine ⟨.endNotAfterOpen, ?_⟩
    unfold set_reward_params
    rw [if_neg (by omega : ¬ ¬ idx < REWARD_NUM), if_pos (by omega : ¬ et > ot)]
  case pos =>
  by_cases h3 : 0 < rate
  case neg =>
    refine ⟨.zeroEmissionRate, ?_⟩
    unfold set_reward_params
    rw [if_neg (by omega : ¬ ¬ idx < REWARD_NUM),
        if_neg (by omega : ¬ ¬ et > ot), if_pos (by omega : ¬ rate > 0)]
  case pos =>
  by_cases h4 : now < ot
  case neg =>
    refine ⟨.openNotAfterNow, ?_⟩
    unfold set_reward_params
    dsimp only
    rw [if_neg (by omega : ¬ ¬ idx < REWARD_NUM),
        if_neg (by omega : ¬ ¬ et > ot),
        if_neg (by omega : ¬ ¬ rate > 0), if_pos (by omega : ¬ ot > now)]
  case pos =>
  refine ⟨.notPoolOwner, ?_⟩
  have hb : ¬ ((ops.contains a && decide (a ≠ PUBKEY_DEFAULT)) = true ∨ a = pool.owner) := by
    intro hc
    exact hfail ⟨h1, h2, h3, h4, hc⟩
  push_neg at hb
  unfold set_reward_params
  dsimp only
  rw [if_neg (by omega : ¬ ¬ idx < REWARD_NUM),
      if_neg (by omega : ¬ ¬ et > ot),
      if_neg (by omega : ¬ ¬ rate > 0),
      if_neg (by omega : ¬ ¬ ot > now),
      if_pos ⟨hb.1, hb.2⟩]

/-- Success inversion for the authorized remainder: the indexed settled slot
exists and is configured, the selected rule accepted, and the staged pool is
the settled pool with exactly that slot replaced. -/
theorem processAuthorized_ok_inv {b : Bool} {pool : PoolState}
    {now idx rate ot et : Nat} {rem : Option RemainingAccounts}
    {pool' : PoolState} {amt : Nat}
    (h : processAuthorized b pool now idx rate ot et rem = .ok (pool', amt)) :
    ∃ hidx : idx < (pool.update_reward_infos now).rewardInfos.length,
      ((pool.update_reward_infos now).rewardInfos.get ⟨idx, hidx⟩).isInitialized = true ∧
      ∃ ri1 : RewardInfo,
        applyUpdateRule b ((pool.update_reward_infos now).rewardInfos.get ⟨idx, hidx⟩)
            now rate ot et = .ok (ri1, amt) ∧
        pool'.owner = pool.owner ∧
        pool'.rewardInfos =
          ((pool.update_reward_infos now).rewardInfos).set idx ri1 := by
  unfold processAuthorized at h
  by_cases hidx : idx < (pool.update_reward_infos now).rewardInfos.length
  case neg =>
    rw [dif_neg hidx] at h
    cases h
  case pos =>
  rw [dif_pos hidx] at h
  dsimp only at h
  refine ⟨hidx, ?_⟩
  by_cases hinit : ((pool.update_reward_infos now).rewardInfos[idx]).isInitialized = true
  case neg =>
    rw [if_pos (by simp [hinit])] at h
    cases h
  case pos =>
  rw [if_neg (by simp [hinit])] at h
  rw [show (pool.update_reward_infos now).rewardInfos.get ⟨idx, hidx⟩ =
      (pool.update_reward_infos now).rewardInfos[idx] from rfl] at h
  refine ⟨hinit, ?_⟩
  cases happ : applyUpdateRule b ((pool.update_reward_infos now).rewardInfos[idx])
      now rate ot et with
  | error e =>
    rw [happ] at h
    cases h
  | ok p =>
    obtain ⟨ri1, amtR⟩ := p
    rw [happ] at h
    dsimp only at h
    refine ⟨ri1, ?_⟩
    by_cases hpos : amtR > 0
    case neg =>
      rw [if_neg hpos] at h
      cases h
      exact ⟨rfl, rfl, rfl⟩
    case pos =>
    rw [if_pos hpos] at h
    cases rem with
    | none => cases h
    | some accs =>
      dsimp only at h
      by_cases hm : accs.rewardTokenVault.mint ≠ accs.authorityTokenAccount.mint
      case pos =>
        rw [if_pos hm] at h
        cases h
      case neg =>
      rw [if_neg hm] at h
      by_cases hk : accs.rewardTokenVault.key ≠ ri1.tokenVault
      case pos =>
        rw [if_pos hk] at h
        cases h
      case neg =>
      rw [if_neg hk] at h
      cases h
      exact ⟨rfl, rfl, rfl⟩

/-- Either update rule, applied to a settled slot satisfying the schedule
invariant, yields a slot satisfying it again (given the argument pre-checks
`ot < et` and `now < ot`). -/
theorem applyUpdateRule_preserves_inv {b : Bool} {S ri1 : RewardInfo}
    {now rate ot et amt : Nat}
    (hOE : S.openTime < S.endTime)
    (hLE : S.lastUpdateTime ≤ S.endTime)
    (hlt : ot < et) (hnow : now < ot)
    (hLM : S.lastUpdateTime = min now S.endTime)
    (h : applyUpdateRule b S now rate ot et = .ok (ri1, amt)) :
    ri1.openTime < ri1.endTime ∧ ri1.lastUpdateTime ≤ ri1.endTime := by
  cases b with
  | false =>
    unfold applyUpdateRule at h
    rw [if_neg (by simp)] at h
    by_cases hgate : now ≤ S.openTime
    · rw [if_pos hgate] at h
      cases h
    · rw [if_neg hgate] at h
      by_cases hfin : S.lastUpdateTime = S.endTime
      · obtain ⟨_, _, _, _, _, hri⟩ := normal_update_fresh_ok hfin h
        subst hri
        exact ⟨hlt, Nat.le_of_lt hlt⟩
      · obtain ⟨_, hend, _, _, _, _, _, hri⟩ := normal_update_active_ok hfin h
        by_cases hpos : 0 < et - S.endTime
        · rw [if_pos hpos] at hri
          subst hri
          refine ⟨?_, ?_⟩
          · show S.openTime < et
            omega
          · show S.lastUpdateTime ≤ et
            omega
        · rw [if_neg hpos] at hri
          subst hri
          exact ⟨hOE, hLE⟩
  | true =>
    by_cases hbr : S.lastUpdateTime = S.endTime ∨ S.openTime > now
    · obtain ⟨_, _, _, hri⟩ := admin_update_fresh_ok hbr h
      subst hri
      exact ⟨hlt, Nat.le_of_lt hlt⟩
    · obtain ⟨_, _, _, hri⟩ := admin_update_active_ok hbr h
      subst hri
      push_neg at hbr
      refine ⟨?_, ?_⟩
      · show S.openTime < et
        omega
      · show S.lastUpdateTime ≤ et
        obtain ⟨hne, hop⟩ := hbr
        omega

/-- C9: on every successful `SetRewardParams` (either caller class, either
branch, including a privileged shortening of `end_time`), every reward slot
that satisfied `open_time < end_time ∧ last_update_time ≤ end_time` at entry
satisfies both again on exit. -/
theorem C9_invariant_preservation (ops : List Pubkey) (a : Pubkey)
    (pool : PoolState) (now idx rate ot et : Nat)
    (rem : Option RemainingAccounts) (pool' : PoolState) (amt : Nat)
    (hok : set_reward_params ops a pool now idx rate ot et rem = .ok (pool', amt)) :
    ∀ (i : Nat) (ri ri' : RewardInfo),
      pool.rewardInfos[i]? = some ri →
      pool'.rewardInfos[i]? = some ri' →
      ri.openTime < ri.endTime → ri.lastUpdateTime ≤ ri.endTime →
      ri'.openTime < ri'.endTime ∧ ri'.lastUpdateTime ≤ ri'.endTime := by
  by_cases hpre : idx < REWARD_NUM ∧ ot < et ∧ 0 < rate ∧ now < ot ∧
      ((ops.contains a && decide (a ≠ PUBKEY_DEFAULT)) = true ∨ a = pool.owner)
  case neg =>
    obtain ⟨e, he⟩ := set_reward_params_precheck_fail hpre
    rw [he] at hok
    cases hok
  case pos =>
  obtain ⟨hn1, hlt, hrate, hnow, hauth⟩ := hpre
  rw [set_reward_params_eq_processAuthorized hn1 hlt hrate hnow hauth] at hok
  obtain ⟨hidx, hinit, ri1, happ, hown, hris⟩ := processAuthorized_ok_inv hok
  intro i ri ri' hri hri' hinv1 hinv2
  have hsettle : (pool.update_reward_infos now).rewardInfos =
      pool.rewardInfos.map (fun r => r.settleTo now) := rfl
  rw [hris, hsettle] at hri'
  by_cases hi : i = idx
  case neg =>
    rw [List.getElem?_set_ne (fun hc => hi hc.symm)] at hri'
    rw [List.getElem?_map, hri] at hri'
    have hset : ri' = ri.settleTo now := by
      simpa using hri'.symm
    subst hset
    unfold RewardInfo.settleTo
    split
    · exact ⟨hinv1, min_le_right _ _⟩
    · exact ⟨hinv1, hinv2⟩
  case pos =>
  subst hi
  have hlen : i < pool.rewardInfos.length := by
    have h1 := hidx
    rw [hsettle, List.length_map] at h1
    exact h1
  rw [List.getElem?_set_self (by rw [List.length_map]; exact hlen)] at hri'
  have hri1 : ri' = ri1 := by
    simpa using hri'.symm
  subst hri1
  have hget : pool.rewardInfos[i] = ri := by
    have h1 := List.getElem?_eq_getElem hlen
    rw [hri] at h1
    simpa using h1.symm
  have hriS : (pool.update_reward_infos now).rewardInfos.get ⟨i, hidx⟩ =
      ri.settleTo now := by
    show (pool.rewardInfos.map (fun r => r.settleTo now))[i] = ri.settleTo now
    rw [List.getElem_map, hget]
  rw [hriS] at happ hinit
  have hinitri : ri.isInitialized = true := by
    unfold RewardInfo.settleTo at hinit
    split at hinit
    · assumption
    · exact hinit
  have hS : ri.settleTo now = { ri with lastUpdateTime := min now ri.endTime } := by
    unfold RewardInfo.settleTo
    rw [if_pos (by simp [hinitri])]
  have hOE : (ri.settleTo now).openTime < (ri.settleTo now).endTime := by
    rw [hS]
    exact hinv1
  have hLE : (ri.settleTo now).lastUpdateTime ≤ (ri.settleTo now).endTime := by
    rw [hS]
    exact min_le_right _ _
  have hLM : (ri.settleTo now).lastUpdateTime = min now (ri.settleTo now).endTime := by
    rw [hS]
  exact applyUpdateRule_preserves_inv hOE hLE hlt hnow hLM happ

/-- C9 witness: a concrete successful owner extension leaves the (single)
slot satisfying the schedule invariant. -/
theorem C9_invariant_preservation_witness :
    (⟨10, 605800, 400, 2 ^ 64, 1, 2⟩ : RewardInfo).openTime <
        (⟨10, 605800, 400, 2 ^ 64, 1, 2⟩ : RewardInfo).endTime ∧
    (⟨10, 605800, 400, 2 ^ 64, 1, 2⟩ : RewardInfo).lastUpdateTime ≤
        (⟨10, 605800, 400, 2 ^ 64, 1, 2⟩ : RewardInfo).endTime :=
  C9_invariant_preservation [] 7 ⟨7, [⟨10, 1000, 400, 2 ^ 64, 1, 2⟩]⟩ 400 0
      (2 ^ 64) 500 605800 (some ⟨⟨2, 9⟩, ⟨3, 9⟩, 9⟩)
      ⟨7, [⟨10, 605800, 400, 2 ^ 64, 1, 2⟩]⟩ 604800 (by rfl) 0
      ⟨10, 1000, 400, 2 ^ 64, 1, 2⟩ ⟨10, 605800, 400, 2 ^ 64, 1, 2⟩
      rfl rfl (by decide) (by decide)

end SetRewardParamsSpec
